import Mathlib

/-!
Shallow embedding of the clipboard-history core of `src/electron/main.ts`
(the `ClipboardManager` class and its IPC handlers).

JavaScript strings are modelled as `List Char` (`JSt`): equality, per-character
operations (`includes` of a single character, `substring`, `trim`, the two tag
regexes) are all character-level.  `Date.now()` is modelled by an explicit
`now : Nat` argument; `Date.now().toString()` becomes `(toString now).data`.
The md5 digest and the base64 codec of Node are external primitives whose
internals the program never inspects; they are passed in as an explicit
`Codec` record of string functions, so every definition stays executable.
The Electron clipboard read of one poll tick is a `Snapshot`; the renderer
window's presence (`mainWindow && !isDestroyed()`) is a `Bool` argument, and a
`webContents.send('clipboard-updated', h)` becomes an emitted `Event`.
-/

namespace Clip

/-- JavaScript string, modelled character by character. -/
abbrev JSt := List Char

/-- The `'text' | 'image' | 'html'` union of the `ClipboardItem` interface. -/
inductive CType
  | text
  | image
  | html
deriving DecidableEq

/-- The `ClipboardItem` interface of `src/electron/main.ts` (lines 11-17).
`preview` is optional there (`preview?: string`). -/
structure ClipboardItem where
  id : JSt
  content : JSt
  type : CType
  timestamp : Nat
  preview : Option JSt
deriving DecidableEq

/-- Whitespace for JavaScript `String.prototype.trim` (WhiteSpace and
LineTerminator code points). -/
def isJsWhitespace (c : Char) : Bool :=
  c == ' ' || c == '\t' || c == '\n' || c == '\r' || c == '\x0b' || c == '\x0c' ||
  c == '\u00A0' || c == '\u1680' || c == '\u2000' || c == '\u2001' || c == '\u2002' ||
  c == '\u2003' || c == '\u2004' || c == '\u2005' || c == '\u2006' || c == '\u2007' ||
  c == '\u2008' || c == '\u2009' || c == '\u200A' || c == '\u2028' || c == '\u2029' ||
  c == '\u202F' || c == '\u205F' || c == '\u3000' || c == '\uFEFF'

/-- JavaScript `s.trim()`: drop whitespace from both ends. -/
def jsTrim (s : JSt) : JSt :=
  ((s.dropWhile (fun c => isJsWhitespace c)).reverse.dropWhile
    (fun c => isJsWhitespace c)).reverse

/-- Count of the global matches of the regex `<[^>]+>` in a string
(the `(html.match(/<[^>]+>/g) || []).length` of line 231).  The scan is a
left-to-right automaton: `none` = outside a candidate tag, `some b` = after a
`<`, where `b` records whether at least one non-`>` character followed it
(the `+` of the regex); a `>` closes a match only when `b` is true. -/
def countTagsFrom : List Char → Option Bool → Nat
  | [], _ => 0
  | c :: rest, none =>
      if c = '<' then countTagsFrom rest (some false) else countTagsFrom rest none
  | c :: rest, some b =>
      if c = '>' then
        (if b then 1 + countTagsFrom rest none else countTagsFrom rest none)
      else countTagsFrom rest (some true)

/-- Number of matches of `/<[^>]+>/g` in `s`. -/
def countTags (s : JSt) : Nat := countTagsFrom s none

/-- JavaScript `s.replace(/<[^>]*>/g, '')` (preview derivation, line 185):
remove every match of `<[^>]*>`.  `some buf` buffers the characters consumed
since the pending `<` (in reverse); a `>` discards the buffer (a match), the
end of input emits it verbatim (no closing `>`, so no match). -/
def stripTagsGo : List Char → Option (List Char) → List Char
  | [], none => []
  | [], some buf => buf.reverse
  | c :: rest, none =>
      if c = '<' then stripTagsGo rest (some [c]) else c :: stripTagsGo rest none
  | c :: rest, some buf =>
      if c = '>' then stripTagsGo rest none else stripTagsGo rest (some (c :: buf))

/-- All tags `<...>` removed, as in the html preview of line 185. -/
def stripTags (s : JSt) : JSt := stripTagsGo s none

/-- Helper for `replaceFirst`: if `s = pat ++ rest`, return `some rest`. -/
def matchesAt : JSt → JSt → Option JSt
  | [], s => some s
  | _ :: _, [] => none
  | p :: ps, c :: cs => if p = c then matchesAt ps cs else none

/-- JavaScript `s.replace(pat, '')` with a plain-string `pat`: remove the
first occurrence of `pat`, scanning left to right (line 363). -/
def replaceFirst (pat : JSt) : JSt → JSt
  | [] => []
  | c :: rest =>
      match matchesAt pat (c :: rest) with
      | some tail => tail
      | none => c :: replaceFirst pat rest

/-- The `'data:image/png;base64,'` marker of lines 215 and 363. -/
def dataUrlHead : JSt := "data:image/png;base64,".data

/-- External string primitives: the md5 hex digest of lines 212/367 and the
base64 codec of lines 215/364.  The program only ever compares their outputs
for equality or concatenates them, so they enter the model as an explicit
record of functions. -/
structure Codec where
  hash : JSt → JSt
  b64enc : JSt → JSt
  b64dec : JSt → JSt

/-- A push to the renderer: `webContents.send('clipboard-updated', h)`. -/
inductive Event
  | clipboardUpdated (history : List ClipboardItem)
deriving DecidableEq

/-- The mutable fields of `ClipboardManager` that the monitoring, history and
restore logic touches (lines 23-28). -/
structure ManagerState where
  clipboardHistory : List ClipboardItem
  lastTextContent : JSt
  lastImageHash : JSt
  lastHtmlContent : JSt
  isInternalCopy : Bool
deriving DecidableEq

/-- One poll tick's clipboard read: `clipboard.readImage()` (as `none` when
`image.isEmpty()`, else `some` of its PNG bytes), `clipboard.readText()` and
`clipboard.readHTML()`. -/
structure Snapshot where
  image : Option JSt
  text : JSt
  html : JSt
deriving DecidableEq

/-- The `ClipboardItem` literal built at lines 178-187: `id` is
`Date.now().toString()`, `timestamp` is `Date.now()`, `preview` truncates the
content (tags stripped for html, the fixed label `'Image'` for images). -/
def mkItem (now : Nat) (content : JSt) (ty : CType) : ClipboardItem :=
  { id := (toString now).data
    content := content
    type := ty
    timestamp := now
    preview := some (match ty with
      | CType.text => content.take 100
      | CType.image => "Image".data
      | CType.html => (stripTags content).take 100) }

/-- `ClipboardManager.addToHistory` (lines 164-196): reject empty content,
reject while `isInternalCopy`, suppress when any of the 3 most recent entries
has the same content and type, otherwise unshift the new item, re-slice to
100, persist, and push the new history to the window when it exists. -/
def addToHistory (st : ManagerState) (now : Nat) (content : JSt) (ty : CType)
    (window : Bool) : ManagerState × List Event :=
  if content = [] then (st, [])
  else if st.isInternalCopy then (st, [])
  else if (st.clipboardHistory.take 3).any
      (fun it => it.content == content && it.type == ty) then (st, [])
  else
    let item := mkItem now content ty
    let newHistory := (item :: st.clipboardHistory).take 100
    ({ st with clipboardHistory := newHistory },
     if window then [Event.clipboardUpdated newHistory] else [])

/-- The classification of lines 226-234: the `isActualHTML` heuristic picks
the payload and its type. -/
def isActualHTML (html text : JSt) : Bool :=
  (!(html == [])) && (!(jsTrim html == [])) && (!(html == text)) &&
  html.contains '<' && html.contains '>' && decide (2 < countTags html)

/-- The `(currentContent, contentType)` pair of lines 233-234. -/
def classifyPayload (html text : JSt) : JSt × CType :=
  if isActualHTML html text then (html, CType.html) else (text, CType.text)

/-- The text/html half of a poll tick (lines 222-247), reached only when the
image branch reported nothing new: classify, compare against the last-seen
slot of the classified type, and on a non-empty difference ingest and update
that slot. -/
def textHtmlStep (st : ManagerState) (snap : Snapshot) (now : Nat)
    (window : Bool) : ManagerState × List Event :=
  let p := classifyPayload snap.html snap.text
  let currentContent := p.1
  let contentType := p.2
  let lastContent :=
    if contentType = CType.html then st.lastHtmlContent else st.lastTextContent
  if currentContent ≠ [] ∧ currentContent ≠ lastContent then
    let r := addToHistory st now currentContent contentType window
    if contentType = CType.html then
      ({ r.1 with lastHtmlContent := currentContent }, r.2)
    else
      ({ r.1 with lastTextContent := currentContent }, r.2)
  else (st, [])

/-- One iteration of the `setInterval` body of lines 202-248: skip everything
while `isInternalCopy`; else, on a non-empty image whose md5 differs from the
last-seen hash, ingest the base64 data URL and record the hash
(`hasNewContent = true` short-circuits the text/html half); otherwise run the
text/html half. -/
def tick (codec : Codec) (st : ManagerState) (snap : Snapshot) (now : Nat)
    (window : Bool) : ManagerState × List Event :=
  if st.isInternalCopy then (st, [])
  else
    match snap.image with
    | some png =>
        let imageHash := codec.hash png
        if imageHash ≠ st.lastImageHash then
          let imageBase64 := dataUrlHead ++ codec.b64enc png
          let r := addToHistory st now imageBase64 CType.image window
          ({ r.1 with lastImageHash := imageHash }, r.2)
        else textHtmlStep st snap now window
    | none => textHtmlStep st snap now window

/-- The `delete-clipboard-item` IPC handler (lines 388-392): keep every item
whose id differs, persist, and return the new history to the caller.  No
`clipboard-updated` push happens here. -/
def deleteItem (st : ManagerState) (id : JSt) : ManagerState × List Event :=
  ({ st with clipboardHistory :=
      st.clipboardHistory.filter (fun it => !(it.id == id)) }, [])

/-- `ClipboardManager.clearHistory` (lines 346-352): empty the list, persist,
and push the (empty) history when the window exists. -/
def clearHistory (st : ManagerState) (window : Bool) : ManagerState × List Event :=
  ({ st with clipboardHistory := [] },
   if window then [Event.clipboardUpdated []] else [])

/-- The `copy-to-clipboard` IPC handler (lines 359-386), state part: set
`isInternalCopy`, write the item to the OS clipboard (an external effect) and
update the matching last-seen slot(s); `item.type` arrives as a raw string.
The deferred flag clear is `guardTimeout` below; hide-window and the optional
paste simulation touch no modelled state. -/
def copyToClipboard (codec : Codec) (st : ManagerState) (content : JSt)
    (ty : JSt) : ManagerState :=
  let st0 := { st with isInternalCopy := true }
  if ty == "image".data then
    let base64Data := replaceFirst dataUrlHead content
    let imageBuffer := codec.b64dec base64Data
    { st0 with lastImageHash := codec.hash imageBuffer }
  else if ty == "html".data then
    { st0 with lastHtmlContent := content, lastTextContent := content }
  else
    { st0 with lastTextContent := content }

/-- The `setTimeout(() => { this.isInternalCopy = false }, 100)` of
lines 377-379, as its own step. -/
def guardTimeout (st : ManagerState) : ManagerState :=
  { st with isInternalCopy := false }

/-- State after the constructor plus `startClipboardMonitoring`'s seeding
(lines 23-28 and 199-200): empty history (the store default), the last-seen
text/html slots primed from whatever the clipboard held at startup, empty
last image hash, guard flag down. -/
def initialState (t h : JSt) : ManagerState :=
  { clipboardHistory := []
    lastTextContent := t
    lastImageHash := []
    lastHtmlContent := h
    isInternalCopy := false }

/-- The states the manager can reach: the initial state, closed under poll
ticks, deletions, clears, restores and the guard-clearing timeout. -/
inductive Reachable : ManagerState → Prop
  | start (t h : JSt) : Reachable (initialState t h)
  | stepTick {st : ManagerState} (codec : Codec) (snap : Snapshot) (now : Nat)
      (window : Bool) : Reachable st → Reachable (tick codec st snap now window).1
  | stepDelete {st : ManagerState} (id : JSt) :
      Reachable st → Reachable (deleteItem st id).1
  | stepClear {st : ManagerState} (window : Bool) :
      Reachable st → Reachable (clearHistory st window).1
  | stepCopy {st : ManagerState} (codec : Codec) (content ty : JSt) :
      Reachable st → Reachable (copyToClipboard codec st content ty)
  | stepGuard {st : ManagerState} : Reachable st → Reachable (guardTimeout st)

/-- A concrete codec for evaluating the model on examples: the program only
compares digests for equality, so the identity functions are adequate. -/
def idCodec : Codec := { hash := fun s => s, b64enc := fun s => s, b64dec := fun s => s }

/-! ### Basic facts about the operations -/

lemma copy_hist_eq (codec : Codec) (st : ManagerState) (content ty : JSt) :
    (copyToClipboard codec st content ty).clipboardHistory = st.clipboardHistory := by
  unfold copyToClipboard
  split_ifs <;> rfl

lemma addToHistory_hist_cases (st : ManagerState) (now : Nat) (c : JSt) (t : CType)
    (w : Bool) :
    (addToHistory st now c t w).1.clipboardHistory = st.clipboardHistory ∨
    (addToHistory st now c t w).1.clipboardHistory =
      (mkItem now c t :: st.clipboardHistory).take 100 := by
  unfold addToHistory
  split_ifs <;> simp

lemma addToHistory_length_le {st : ManagerState} (now : Nat) (c : JSt) (t : CType)
    (w : Bool) (h : st.clipboardHistory.length ≤ 100) :
    (addToHistory st now c t w).1.clipboardHistory.length ≤ 100 := by
  rcases addToHistory_hist_cases st now c t w with hc | hc <;> rw [hc]
  · exact h
  · rw [List.length_take]
    exact inf_le_left

lemma textHtmlStep_hist_cases (st : ManagerState) (snap : Snapshot) (now : Nat)
    (w : Bool) :
    (textHtmlStep st snap now w).1.clipboardHistory = st.clipboardHistory ∨
    ∃ c t, (textHtmlStep st snap now w).1.clipboardHistory =
      (addToHistory st now c t w).1.clipboardHistory := by
  simp only [textHtmlStep]
  split_ifs <;> first
    | (left; rfl)
    | (right; exact ⟨_, _, rfl⟩)

lemma tick_hist_cases (codec : Codec) (st : ManagerState) (snap : Snapshot)
    (now : Nat) (w : Bool) :
    (tick codec st snap now w).1.clipboardHistory = st.clipboardHistory ∨
    ∃ c t, (tick codec st snap now w).1.clipboardHistory =
      (addToHistory st now c t w).1.clipboardHistory := by
  unfold tick
  split_ifs with hf
  · left; rfl
  · cases hsnap : snap.image with
    | none => exact textHtmlStep_hist_cases st snap now w
    | some png =>
      simp only []
      split_ifs with hh
      · right; exact ⟨_, _, rfl⟩
      · exact textHtmlStep_hist_cases st snap now w

lemma addToHistory_inserted {st : ManagerState} {now : Nat} {c : JSt} {t : CType}
    {w : Bool}
    (h : (addToHistory st now c t w).1.clipboardHistory ≠ st.clipboardHistory) :
    (addToHistory st now c t w).1.clipboardHistory =
      (mkItem now c t :: st.clipboardHistory).take 100 := by
  rcases addToHistory_hist_cases st now c t w with hc | hc
  · exact absurd hc h
  · exact hc

lemma reachable_length_le {st : ManagerState} (h : Reachable st) :
    st.clipboardHistory.length ≤ 100 := by
  induction h with
  | start t h => simp [initialState]
  | stepTick codec snap now w _ ih =>
      rcases tick_hist_cases codec _ snap now w with hc | ⟨c, t, hc⟩ <;> rw [hc]
      · exact ih
      · exact addToHistory_length_le now c t w ih
  | stepDelete id _ ih =>
      exact le_trans (List.length_filter_le _ _) ih
  | stepClear w _ ih => simp [clearHistory]
  | stepCopy codec content ty _ ih => rw [copy_hist_eq]; exact ih
  | stepGuard _ ih => exact ih

/-! ### C1: the 100-item cap and oldest-first eviction -/

/-- A state holding exactly 100 items, for exercising the cap. -/
def hundredItems : List ClipboardItem :=
  (List.range 100).map (fun i => mkItem i (toString i).data CType.text)

def st100 : ManagerState :=
  { clipboardHistory := hundredItems
    lastTextContent := []
    lastImageHash := []
    lastHtmlContent := []
    isInternalCopy := false }

/-- C1: in every reachable state the history holds at most 100 items, and an
insert performed at the cap keeps the new item at the front while dropping
exactly the last (oldest) entry. -/
theorem claim_C1 :
    (∀ st : ManagerState, Reachable st → st.clipboardHistory.length ≤ 100) ∧
    (∀ (st : ManagerState) (now : Nat) (c : JSt) (t : CType) (w : Bool),
      st.clipboardHistory.length = 100 →
      (addToHistory st now c t w).1.clipboardHistory ≠ st.clipboardHistory →
      (addToHistory st now c t w).1.clipboardHistory =
        mkItem now c t :: st.clipboardHistory.dropLast) := by
  constructor
  · exact fun st h => reachable_length_le h
  · intro st now c t w hlen hne
    rw [addToHistory_inserted hne]
    rw [show (100 : Nat) = 99 + 1 from rfl, List.take_succ_cons]
    congr 1
    rw [List.dropLast_eq_take, hlen]

/-- Witness for C1 at concrete inputs: the initial state respects the cap, and
inserting into a concrete 100-item history drops exactly its last entry. -/
theorem claim_C1_witness :
    (initialState [] []).clipboardHistory.length ≤ 100 ∧
    (addToHistory st100 999 "x".data CType.text true).1.clipboardHistory =
      mkItem 999 "x".data CType.text :: st100.clipboardHistory.dropLast :=
  ⟨claim_C1.1 _ (Reachable.start [] []),
   claim_C1.2 st100 999 "x".data CType.text true (by decide) (by decide)⟩

/-! ### C2: the 3-entry dedup window -/

lemma cons_take_ne (now : Nat) (c : JSt) (t : CType) (h : List ClipboardItem)
    (hm : ∀ x ∈ h.take 3, ¬(x.content = c ∧ x.type = t)) :
    (mkItem now c t :: h).take 100 ≠ h := by
  cases h with
  | nil => simp
  | cons x xs =>
    intro heq
    rw [show (100 : Nat) = 99 + 1 from rfl, List.take_succ_cons] at heq
    injection heq with h1 h2
    refine hm x ?_ ⟨?_, ?_⟩
    · rw [show (3 : Nat) = 2 + 1 from rfl, List.take_succ_cons]
      exact List.mem_cons_self x _
    · rw [← h1]; rfl
    · rw [← h1]; rfl

lemma addToHistory_suppressed_iff (st : ManagerState) (now : Nat) (c : JSt)
    (t : CType) (w : Bool) (hc : c ≠ []) (hf : st.isInternalCopy = false) :
    ((addToHistory st now c t w).1.clipboardHistory = st.clipboardHistory ↔
      ∃ it ∈ st.clipboardHistory.take 3, it.content = c ∧ it.type = t) := by
  unfold addToHistory
  rw [if_neg hc, if_neg (by simp [hf] : ¬st.isInternalCopy = true)]
  by_cases hd : (st.clipboardHistory.take 3).any
      (fun it => it.content == c && it.type == t) = true
  · rw [if_pos hd]
    simp only [List.any_eq_true, Bool.and_eq_true, beq_iff_eq] at hd
    simpa using hd
  · rw [if_neg hd]
    constructor
    · intro heq
      exact absurd heq (cons_take_ne now c t st.clipboardHistory (fun x hx hand =>
        hd (List.any_eq_true.mpr ⟨x, hx, by simp [hand.1, hand.2]⟩)))
    · rintro ⟨x, hx, h1, h2⟩
      exact absurd (List.any_eq_true.mpr ⟨x, hx, by simp [h1, h2]⟩) hd

lemma pair_mem_transfer {l1 l2 : List ClipboardItem} {c : JSt} {t : CType}
    (hmap : l1.map (fun it => (it.content, it.type)) =
      l2.map (fun it => (it.content, it.type)))
    (hex : ∃ it ∈ l1, it.content = c ∧ it.type = t) :
    ∃ it ∈ l2, it.content = c ∧ it.type = t := by
  rcases hex with ⟨x, hx, h1, h2⟩
  have hmem : ((c, t) : JSt × CType) ∈ l2.map (fun it => (it.content, it.type)) := by
    rw [← hmap]
    exact List.mem_map.mpr ⟨x, hx, by rw [h1, h2]⟩
  rcases List.mem_map.mp hmem with ⟨y, hy, hxy⟩
  exact ⟨y, hy, congrArg Prod.fst hxy, congrArg Prod.snd hxy⟩

/-- C2: for a candidate actually offered to the history (non-empty content,
guard flag down), insertion is suppressed exactly when one of the 3 most
recent entries matches on content and type; and the decision is a function of
those content/type pairs alone — two histories agreeing on them decide
alike, whatever their timestamps, ids or previews. -/
theorem claim_C2 (st : ManagerState) (now : Nat) (c : JSt) (t : CType) (w : Bool)
    (hc : c ≠ []) (hf : st.isInternalCopy = false) :
    ((addToHistory st now c t w).1.clipboardHistory = st.clipboardHistory ↔
      ∃ it ∈ st.clipboardHistory.take 3, it.content = c ∧ it.type = t) ∧
    (∀ st2 : ManagerState, st2.isInternalCopy = false →
      (st.clipboardHistory.take 3).map (fun it => (it.content, it.type)) =
        (st2.clipboardHistory.take 3).map (fun it => (it.content, it.type)) →
      ((addToHistory st now c t w).1.clipboardHistory = st.clipboardHistory ↔
        (addToHistory st2 now c t w).1.clipboardHistory = st2.clipboardHistory)) := by
  refine ⟨addToHistory_suppressed_iff st now c t w hc hf, ?_⟩
  intro st2 hf2 hmap
  rw [addToHistory_suppressed_iff st now c t w hc hf,
      addToHistory_suppressed_iff st2 now c t w hc hf2]
  exact ⟨pair_mem_transfer hmap, pair_mem_transfer hmap.symm⟩

def c2Item : ClipboardItem :=
  { id := "9".data, content := "dup".data, type := CType.text, timestamp := 9,
    preview := some "dup".data }

def c2State : ManagerState :=
  { clipboardHistory := [c2Item], lastTextContent := [], lastImageHash := [],
    lastHtmlContent := [], isInternalCopy := false }

/-- Witness for C2: a candidate matching the most recent entry is suppressed,
a fresh one is inserted. -/
theorem claim_C2_witness :
    (addToHistory c2State 10 "dup".data CType.text true).1.clipboardHistory =
      c2State.clipboardHistory ∧
    (addToHistory c2State 10 "new".data CType.text true).1.clipboardHistory ≠
      c2State.clipboardHistory := by
  constructor
  · exact (claim_C2 c2State 10 "dup".data CType.text true (by decide) rfl).1.mpr
      ⟨c2Item, by decide, rfl, rfl⟩
  · intro h
    have hex := (claim_C2 c2State 10 "new".data CType.text true (by decide) rfl).1.mp h
    revert hex
    decide

/-! ### C8: time-based ids collide for same-millisecond inserts -/

/-- C8 (code bug): two distinct text copies ingested in the same millisecond
(`Date.now() = 1000` for both ticks) both receive the id `"1000"`, so a
reachable history carries duplicate ids — item ids are not pairwise distinct. -/
theorem claim_C8 :
    ((tick idCodec (tick idCodec (initialState [] []) ⟨none, "a".data, []⟩ 1000 true).1
        ⟨none, "b".data, []⟩ 1000 true).1.clipboardHistory.map (fun it => it.id)) =
      [(toString 1000).data, (toString 1000).data] ∧
    ¬((tick idCodec (tick idCodec (initialState [] []) ⟨none, "a".data, []⟩ 1000 true).1
        ⟨none, "b".data, []⟩ 1000 true).1.clipboardHistory.map (fun it => it.id)).Nodup := by
  decide

/-! ### C10: no entry ever has empty content -/

lemma addToHistory_content_ne {st : ManagerState} (now : Nat) (c : JSt) (t : CType)
    (w : Bool) (hall : ∀ it ∈ st.clipboardHistory, it.content ≠ []) :
    ∀ it ∈ (addToHistory st now c t w).1.clipboardHistory, it.content ≠ [] := by
  unfold addToHistory
  split_ifs with h1 h2 h3 h4 <;> try exact hall
  all_goals
    intro it hit
    rcases List.mem_cons.mp (List.take_subset _ _ hit) with rfl | hmem
  · exact h1
  · exact hall it hmem
  · exact h1
  · exact hall it hmem

lemma reachable_content_ne {st : ManagerState} (h : Reachable st) :
    ∀ it ∈ st.clipboardHistory, it.content ≠ [] := by
  induction h with
  | start t h => simp [initialState]
  | stepTick codec snap now w _ ih =>
      rcases tick_hist_cases codec _ snap now w with hc | ⟨c, t, hc⟩ <;> rw [hc]
      · exact ih
      · exact addToHistory_content_ne now c t w ih
  | stepDelete id _ ih =>
      intro it hit
      exact ih it (List.mem_of_mem_filter hit)
  | stepClear w _ ih => simp [clearHistory]
  | stepCopy codec content ty _ ih => simp only [copy_hist_eq]; exact ih
  | stepGuard _ ih => exact ih

/-- C10: an empty-content candidate is rejected outright (before the dedup
check, whatever the type), and consequently every entry of every reachable
history has non-empty content. -/
theorem claim_C10 :
    (∀ (st : ManagerState) (now : Nat) (t : CType) (w : Bool),
      addToHistory st now [] t w = (st, [])) ∧
    (∀ st : ManagerState, Reachable st →
      ∀ it ∈ st.clipboardHistory, it.content ≠ []) := by
  constructor
  · intro st now t w
    unfold addToHistory
    rw [if_pos rfl]
  · exact fun st h => reachable_content_ne h

/-- Witness for C10: the empty-content rejection evaluated at a concrete
state, and the non-empty-content fact read off a concrete reachable state. -/
theorem claim_C10_witness :
    addToHistory (initialState [] []) 5 [] CType.text true = (initialState [] [], []) ∧
    ("a".data : JSt) ≠ [] := by
  constructor
  · exact claim_C10.1 (initialState [] []) 5 CType.text true
  · exact claim_C10.2 (tick idCodec (initialState [] []) ⟨none, "a".data, []⟩ 7 true).1
      (Reachable.stepTick idCodec ⟨none, "a".data, []⟩ 7 true (Reachable.start [] []))
      (mkItem 7 "a".data CType.text) (by decide)

/-! ### C3: the real-HTML heuristic -/

/-- C3: the snapshot (with no new image) classifies as HTML, with the HTML
string as payload, exactly when the HTML is non-empty after trimming, differs
from the plain text, contains both tag delimiters and has more than two tag
matches; in every other case the payload is the plain text.  In particular
two or fewer tags, or HTML equal to its plain-text sibling, classify as text. -/
theorem claim_C3 (html text : JSt) :
    (isActualHTML html text = true ↔
      (jsTrim html ≠ [] ∧ html ≠ text ∧ '<' ∈ html ∧ '>' ∈ html ∧
        2 < countTags html)) ∧
    (isActualHTML html text = true → classifyPayload html text = (html, CType.html)) ∧
    (isActualHTML html text = false → classifyPayload html text = (text, CType.text)) ∧
    (countTags html ≤ 2 → classifyPayload html text = (text, CType.text)) ∧
    (html = text → classifyPayload html text = (text, CType.text)) := by
  have hiff : isActualHTML html text = true ↔
      (jsTrim html ≠ [] ∧ html ≠ text ∧ '<' ∈ html ∧ '>' ∈ html ∧
        2 < countTags html) := by
    unfold isActualHTML
    simp only [Bool.and_eq_true, Bool.not_eq_true', beq_eq_false_iff_ne,
      decide_eq_true_eq]
    constructor
    · rintro ⟨⟨⟨⟨⟨hne, htrim⟩, hnt⟩, hlt⟩, hgt⟩, hcnt⟩
      exact ⟨htrim, hnt, List.elem_iff.mp hlt, List.elem_iff.mp hgt, hcnt⟩
    · rintro ⟨htrim, hnt, hlt, hgt, hcnt⟩
      have hne : html ≠ [] := fun h => htrim (by rw [h]; rfl)
      exact ⟨⟨⟨⟨⟨hne, htrim⟩, hnt⟩, List.elem_iff.mpr hlt⟩,
        List.elem_iff.mpr hgt⟩, hcnt⟩
  refine ⟨hiff, ?_, ?_, ?_, ?_⟩
  · intro h
    unfold classifyPayload
    rw [if_pos h]
  · intro h
    unfold classifyPayload
    rw [if_neg (by simp [h])]
  · intro h
    have hfalse : isActualHTML html text = false := by
      cases hb : isActualHTML html text
      · rfl
      · exact absurd ((hiff.mp hb).2.2.2.2) (by omega)
    unfold classifyPayload
    rw [if_neg (by simp [hfalse])]
  · intro h
    have hfalse : isActualHTML html text = false := by
      cases hb : isActualHTML html text
      · rfl
      · exact absurd ((hiff.mp hb).2.1) (by simp [h])
    unfold classifyPayload
    rw [if_neg (by simp [hfalse])]

/-- Witness for C3: a two-tag HTML wrapper classifies as text, a three-tag
fragment distinct from its plain text classifies as HTML. -/
theorem claim_C3_witness :
    classifyPayload "<p>hi</p>".data "hi".data = ("hi".data, CType.text) ∧
    classifyPayload "<meta><p>hi</p>".data "hi".data =
      ("<meta><p>hi</p>".data, CType.html) :=
  ⟨(claim_C3 "<p>hi</p>".data "hi".data).2.2.2.1 (by decide),
   (claim_C3 "<meta><p>hi</p>".data "hi".data).2.1 (by decide)⟩

/-! ### C4: image priority in a poll tick -/

lemma addToHistory_frame (st : ManagerState) (now : Nat) (c : JSt) (t : CType)
    (w : Bool) :
    (addToHistory st now c t w).1.lastTextContent = st.lastTextContent ∧
    (addToHistory st now c t w).1.lastHtmlContent = st.lastHtmlContent := by
  unfold addToHistory
  split_ifs <;> exact ⟨rfl, rfl⟩

/-- C4 (counterexample to the claim as stated): a tick whose snapshot holds a
non-empty image together with text can nonetheless ingest the text — here the
image is unchanged since the previous tick, so the text/html half runs and
the item ingested is the text, not the image. -/
theorem claim_C4_counterexample :
    (Snapshot.mk (some "P".data) "hi".data []).image ≠ none ∧
    ((tick idCodec
        (tick idCodec (initialState [] []) ⟨some "P".data, [], []⟩ 1 true).1
        ⟨some "P".data, "hi".data, []⟩ 2 true).1.clipboardHistory.head?.map
      (fun it => it.type)) = some CType.text := by
  decide

/-- C4 (amended): when the snapshot's image is non-empty and its hash differs
from the last-seen image hash, the image wins the tick outright — the
text/html last-seen slots are untouched and the only possible history change
is the insertion of the image item. -/
theorem claim_C4 (codec : Codec) (st : ManagerState) (png : JSt) (snap : Snapshot)
    (now : Nat) (w : Bool) (hf : st.isInternalCopy = false)
    (hi : snap.image = some png) (hnew : codec.hash png ≠ st.lastImageHash) :
    ((tick codec st snap now w).1.lastTextContent = st.lastTextContent ∧
     (tick codec st snap now w).1.lastHtmlContent = st.lastHtmlContent) ∧
    ((tick codec st snap now w).1.clipboardHistory = st.clipboardHistory ∨
     (tick codec st snap now w).1.clipboardHistory =
       (mkItem now (dataUrlHead ++ codec.b64enc png) CType.image ::
         st.clipboardHistory).take 100) := by
  unfold tick
  rw [if_neg (by simp [hf] : ¬st.isInternalCopy = true)]
  split
  · rename_i q heq
    rw [hi] at heq
    injection heq with hq
    subst hq
    simp only []
    split_ifs
    constructor
    · exact addToHistory_frame st now _ CType.image w
    · rcases addToHistory_hist_cases st now (dataUrlHead ++ codec.b64enc png)
          CType.image w with hc | hc
      · left; exact hc
      · right; exact hc
  · rename_i heq
    rw [hi] at heq
    exact Option.noConfusion heq

/-- Witness for C4 (amended) at a concrete new-image tick. -/
theorem claim_C4_witness :
    ((tick idCodec (initialState "t".data []) ⟨some "Q".data, "zz".data, []⟩ 3
        true).1.lastTextContent = (initialState "t".data []).lastTextContent ∧
     (tick idCodec (initialState "t".data []) ⟨some "Q".data, "zz".data, []⟩ 3
        true).1.lastHtmlContent = (initialState "t".data []).lastHtmlContent) ∧
    ((tick idCodec (initialState "t".data []) ⟨some "Q".data, "zz".data, []⟩ 3
        true).1.clipboardHistory = (initialState "t".data []).clipboardHistory ∨
     (tick idCodec (initialState "t".data []) ⟨some "Q".data, "zz".data, []⟩ 3
        true).1.clipboardHistory =
       (mkItem 3 (dataUrlHead ++ idCodec.b64enc "Q".data) CType.image ::
         (initialState "t".data []).clipboardHistory).take 100) :=
  claim_C4 idCodec (initialState "t".data []) "Q".data
    ⟨some "Q".data, "zz".data, []⟩ 3 true rfl rfl (by decide)

/-! ### C5: which mutations push a snapshot to the renderer -/

lemma addToHistory_event (st : ManagerState) (now : Nat) (c : JSt) (t : CType)
    (h : (addToHistory st now c t true).1.clipboardHistory ≠ st.clipboardHistory) :
    (addToHistory st now c t true).2 =
      [Event.clipboardUpdated (addToHistory st now c t true).1.clipboardHistory] := by
  unfold addToHistory at h ⊢
  split_ifs at h ⊢ <;> first
    | exact absurd rfl h
    | rfl
    | simp_all

def c5Item : ClipboardItem :=
  { id := "1".data, content := "a".data, type := CType.text, timestamp := 0,
    preview := some "a".data }

def c5State : ManagerState :=
  { clipboardHistory := [c5Item], lastTextContent := [], lastImageHash := [],
    lastHtmlContent := [], isInternalCopy := false }

/-- C5 (counterexample to the claim as stated): deleting an existing entry
mutates the store — the history changes — yet the delete handler pushes
nothing on the history-updates channel; it only returns the new list to the
requesting caller. -/
theorem claim_C5_counterexample :
    (deleteItem c5State "1".data).1.clipboardHistory ≠ c5State.clipboardHistory ∧
    (deleteItem c5State "1".data).2 = [] := by
  decide

/-- C5 (amended): an insert that changes the history pushes the full new
snapshot (when the window is present), and clearing pushes the empty
snapshot; deleting pushes nothing — the updated ordered list is instead the
handler's return value. -/
theorem claim_C5 (st : ManagerState) (now : Nat) (c : JSt) (t : CType) (id : JSt) :
    ((addToHistory st now c t true).1.clipboardHistory ≠ st.clipboardHistory →
      (addToHistory st now c t true).2 =
        [Event.clipboardUpdated (addToHistory st now c t true).1.clipboardHistory]) ∧
    ((clearHistory st true).1.clipboardHistory = [] ∧
      (clearHistory st true).2 = [Event.clipboardUpdated []]) ∧
    ((deleteItem st id).2 = [] ∧
      (deleteItem st id).1.clipboardHistory =
        st.clipboardHistory.filter (fun it => !(it.id == id))) :=
  ⟨addToHistory_event st now c t, ⟨rfl, rfl⟩, rfl, rfl⟩

/-- Witness for C5 (amended) at concrete inputs. -/
theorem claim_C5_witness :
    (addToHistory c5State 4 "w".data CType.text true).2 =
      [Event.clipboardUpdated
        (addToHistory c5State 4 "w".data CType.text true).1.clipboardHistory] ∧
    (clearHistory c5State true).2 = [Event.clipboardUpdated []] ∧
    (deleteItem c5State "z".data).2 = [] :=
  ⟨(claim_C5 c5State 4 "w".data CType.text "z".data).1 (by decide),
   (claim_C5 c5State 4 "w".data CType.text "z".data).2.1.2,
   (claim_C5 c5State 4 "w".data CType.text "z".data).2.2.1⟩

/-! ### C6: the internal-write guard -/

lemma textHtmlStep_noop_seen (st : ManagerState) (snap : Snapshot) (now : Nat)
    (w : Bool)
    (h : (classifyPayload snap.html snap.text).1 =
      (if (classifyPayload snap.html snap.text).2 = CType.html then
        st.lastHtmlContent else st.lastTextContent)) :
    textHtmlStep st snap now w = (st, []) := by
  unfold textHtmlStep
  exact if_neg (fun hcond => hcond.2 h)

lemma textHtmlStep_noop_empty (st : ManagerState) (snap : Snapshot) (now : Nat)
    (w : Bool) (h : (classifyPayload snap.html snap.text).1 = []) :
    textHtmlStep st snap now w = (st, []) := by
  unfold textHtmlStep
  exact if_neg (fun hcond => hcond.1 h)

lemma tick_none (codec : Codec) (st : ManagerState) (snap : Snapshot) (now : Nat)
    (w : Bool) (hf : st.isInternalCopy = false) (hi : snap.image = none) :
    tick codec st snap now w = textHtmlStep st snap now w := by
  unfold tick
  rw [if_neg (by simp [hf] : ¬st.isInternalCopy = true)]
  split
  · rename_i q heq
    rw [hi] at heq
    exact Option.noConfusion heq
  · rfl

lemma tick_some_seen (codec : Codec) (st : ManagerState) (snap : Snapshot)
    (now : Nat) (w : Bool) (png : JSt) (hf : st.isInternalCopy = false)
    (hi : snap.image = some png) (hh : codec.hash png = st.lastImageHash) :
    tick codec st snap now w = textHtmlStep st snap now w := by
  unfold tick
  rw [if_neg (by simp [hf] : ¬st.isInternalCopy = true)]
  split
  · rename_i q heq
    rw [hi] at heq
    injection heq with hq
    subst hq
    simp only []
    rw [if_neg (by simp [hh])]
  · rename_i heq
    rw [hi] at heq

/-- C6: while the internal-write flag is up a poll tick is a complete no-op;
a restore raises the flag and rewrites the last-seen slot(s) of the written
type; and once the flag drops again, a tick that still sees the restored
value — for a text, html or image restore — changes nothing, so the restored
item is never re-ingested. -/
theorem claim_C6 :
    (∀ (codec : Codec) (st : ManagerState) (snap : Snapshot) (now : Nat) (w : Bool),
      st.isInternalCopy = true → tick codec st snap now w = (st, [])) ∧
    (∀ (codec : Codec) (st : ManagerState) (c ty : JSt),
      (copyToClipboard codec st c ty).isInternalCopy = true) ∧
    (∀ (codec : Codec) (st : ManagerState) (c : JSt),
      (copyToClipboard codec st c "text".data).lastTextContent = c ∧
      (copyToClipboard codec st c "html".data).lastHtmlContent = c ∧
      (copyToClipboard codec st c "html".data).lastTextContent = c ∧
      (copyToClipboard codec st c "image".data).lastImageHash =
        codec.hash (codec.b64dec (replaceFirst dataUrlHead c))) ∧
    (∀ (codec : Codec) (st : ManagerState) (c : JSt) (snap : Snapshot) (now : Nat)
      (w : Bool), snap.image = none → snap.text = c →
      isActualHTML snap.html snap.text = false →
      tick codec (guardTimeout (copyToClipboard codec st c "text".data)) snap now w =
        (guardTimeout (copyToClipboard codec st c "text".data), [])) ∧
    (∀ (codec : Codec) (st : ManagerState) (c : JSt) (snap : Snapshot) (now : Nat)
      (w : Bool), snap.image = none →
      (isActualHTML snap.html snap.text = true → snap.html = c) →
      (isActualHTML snap.html snap.text = false → snap.text = c) →
      tick codec (guardTimeout (copyToClipboard codec st c "html".data)) snap now w =
        (guardTimeout (copyToClipboard codec st c "html".data), [])) ∧
    (∀ (codec : Codec) (st : ManagerState) (c png : JSt) (snap : Snapshot)
      (now : Nat) (w : Bool), snap.image = some png →
      codec.hash png = (copyToClipboard codec st c "image".data).lastImageHash →
      snap.text = [] → snap.html = [] →
      tick codec (guardTimeout (copyToClipboard codec st c "image".data)) snap now w =
        (guardTimeout (copyToClipboard codec st c "image".data), [])) := by
  refine ⟨?_, ?_, ?_, ?_, ?_, ?_⟩
  · intro codec st snap now w h
    unfold tick
    rw [if_pos h]
  · intro codec st c ty
    unfold copyToClipboard
    split_ifs <;> rfl
  · intro codec st c
    exact ⟨rfl, rfl, rfl, rfl⟩
  · intro codec st c snap now w hi htext hhtml
    rw [tick_none codec _ snap now w rfl hi]
    apply textHtmlStep_noop_seen
    have hp : classifyPayload snap.html snap.text = (snap.text, CType.text) := by
      unfold classifyPayload
      rw [hhtml]
      simp
    rw [hp, htext]
    rfl
  · intro codec st c snap now w hi h1 h2
    rw [tick_none codec _ snap now w rfl hi]
    apply textHtmlStep_noop_seen
    cases hb : isActualHTML snap.html snap.text with
    | false =>
      have hp : classifyPayload snap.html snap.text = (snap.text, CType.text) := by
        unfold classifyPayload
        rw [hb]
        simp
      rw [hp, h2 hb]
      rfl
    | true =>
      have hp : classifyPayload snap.html snap.text = (snap.html, CType.html) := by
        unfold classifyPayload
        rw [hb]
        simp
      rw [hp, h1 hb]
      rfl
  · intro codec st c png snap now w hi hh ht hhtm
    rw [tick_some_seen codec (guardTimeout (copyToClipboard codec st c "image".data))
        snap now w png rfl hi
        (show codec.hash png =
          (guardTimeout (copyToClipboard codec st c
            "image".data)).lastImageHash from hh)]
    apply textHtmlStep_noop_empty
    have hp : classifyPayload snap.html snap.text = (snap.text, CType.text) := by
      unfold classifyPayload
      rw [hhtm]
      rfl
    rw [hp, ht]

def c6State : ManagerState :=
  { clipboardHistory := [], lastTextContent := [], lastImageHash := [],
    lastHtmlContent := [], isInternalCopy := true }

/-- Witness for C6: each guarded scenario evaluated at concrete inputs. -/
theorem claim_C6_witness :
    tick idCodec c6State ⟨none, "x".data, []⟩ 11 true = (c6State, []) ∧
    (copyToClipboard idCodec (initialState [] []) "hi".data
      "text".data).isInternalCopy = true ∧
    tick idCodec
        (guardTimeout (copyToClipboard idCodec (initialState [] []) "hi".data
          "text".data)) ⟨none, "hi".data, []⟩ 12 true =
      (guardTimeout (copyToClipboard idCodec (initialState [] []) "hi".data
        "text".data), []) ∧
    tick idCodec
        (guardTimeout (copyToClipboard idCodec (initialState [] []) "hv".data
          "html".data)) ⟨none, "hv".data, "hv".data⟩ 13 true =
      (guardTimeout (copyToClipboard idCodec (initialState [] []) "hv".data
        "html".data), []) ∧
    tick idCodec
        (guardTimeout (copyToClipboard idCodec (initialState [] [])
          "data:image/png;base64,QQ".data "image".data))
        ⟨some "QQ".data, [], []⟩ 14 true =
      (guardTimeout (copyToClipboard idCodec (initialState [] [])
        "data:image/png;base64,QQ".data "image".data), []) :=
  ⟨claim_C6.1 idCodec c6State ⟨none, "x".data, []⟩ 11 true rfl,
   claim_C6.2.1 idCodec (initialState [] []) "hi".data "text".data,
   claim_C6.2.2.2.1 idCodec (initialState [] []) "hi".data
     ⟨none, "hi".data, []⟩ 12 true rfl rfl (by decide),
   claim_C6.2.2.2.2.1 idCodec (initialState [] []) "hv".data
     ⟨none, "hv".data, "hv".data⟩ 13 true rfl (by decide) (by decide),
   claim_C6.2.2.2.2.2 idCodec (initialState [] []) "data:image/png;base64,QQ".data
     "QQ".data ⟨some "QQ".data, [], []⟩ 14 true rfl (by decide) rfl rfl⟩

/-! ### C7: delete semantics -/

lemma filter_id_eq_erase (l : List ClipboardItem) (a : ClipboardItem)
    (hn : (l.map (fun it => it.id)).Nodup) (ha : a ∈ l) :
    l.filter (fun x => !(x.id == a.id)) = l.erase a := by
  induction l with
  | nil => cases ha
  | cons x xs ih =>
    rw [List.map_cons, List.nodup_cons] at hn
    rcases List.mem_cons.mp ha with rfl | hmem
    · rw [List.erase_cons_head, List.filter_cons_of_neg (by simp)]
      apply List.filter_eq_self.mpr
      intro b hb
      simp only [Bool.not_eq_true', beq_eq_false_iff_ne, ne_eq]
      intro he
      exact hn.1 (List.mem_map.mpr ⟨b, hb, he⟩)
    · have hxid : x.id ≠ a.id := by
        intro he
        exact hn.1 (he ▸ List.mem_map.mpr ⟨a, hmem, rfl⟩)
      rw [List.filter_cons_of_pos (by simp [hxid]),
          List.erase_cons_tail
            (by simp only [beq_iff_eq]; exact fun he => hxid (by rw [he]))]
      rw [ih hn.2 hmem]

/-- C7: deleting an id absent from the history is a no-op (and no error),
and — under the intended id-uniqueness invariant — deleting a present id
removes exactly that entry, leaving the others unchanged and in order; in
general the handler keeps precisely the entries whose id differs. -/
theorem claim_C7 (st : ManagerState) (id : JSt) :
    ((∀ it ∈ st.clipboardHistory, it.id ≠ id) → (deleteItem st id).1 = st) ∧
    ((st.clipboardHistory.map (fun it => it.id)).Nodup →
      ∀ it ∈ st.clipboardHistory, it.id = id →
      (deleteItem st id).1.clipboardHistory = st.clipboardHistory.erase it) ∧
    (deleteItem st id).1.clipboardHistory =
      st.clipboardHistory.filter (fun it => !(it.id == id)) := by
  refine ⟨?_, ?_, rfl⟩
  · intro hall
    have hfe : st.clipboardHistory.filter (fun it => !(it.id == id)) =
        st.clipboardHistory :=
      List.filter_eq_self.mpr (fun a ha => by
        simp only [Bool.not_eq_true', beq_eq_false_iff_ne, ne_eq]
        exact hall a ha)
    unfold deleteItem
    rw [hfe]
  · intro hn it hit hid
    subst hid
    exact filter_id_eq_erase st.clipboardHistory it hn hit

def c7A : ClipboardItem :=
  { id := "7".data, content := "a".data, type := CType.text, timestamp := 1,
    preview := some "a".data }

def c7B : ClipboardItem :=
  { id := "7".data, content := "b".data, type := CType.text, timestamp := 2,
    preview := some "b".data }

def c7State : ManagerState :=
  { clipboardHistory := [c7A, c7B], lastTextContent := [], lastImageHash := [],
    lastHtmlContent := [], isInternalCopy := false }

/-- C7 (counterexample to the claim as stated over all history states): with
two entries sharing the id `"7"` — reachable, since ids are minted from
`Date.now()` — deleting `"7"` removes both entries, not a single one, so the
other entry does not survive unchanged. -/
theorem claim_C7_counterexample :
    c7A ∈ c7State.clipboardHistory ∧ c7A.id = "7".data ∧
    c7State.clipboardHistory.length = 2 ∧
    (deleteItem c7State "7".data).1.clipboardHistory = [] := by
  decide

def c7C : ClipboardItem :=
  { id := "1".data, content := "c".data, type := CType.text, timestamp := 3,
    preview := some "c".data }

def c7D : ClipboardItem :=
  { id := "2".data, content := "d".data, type := CType.text, timestamp := 4,
    preview := some "d".data }

def c7WState : ManagerState :=
  { clipboardHistory := [c7C, c7D], lastTextContent := [], lastImageHash := [],
    lastHtmlContent := [], isInternalCopy := false }

/-- Witness for C7 at a duplicate-free concrete history: deleting a missing
id is the identity, deleting a present id erases exactly that entry. -/
theorem claim_C7_witness :
    (deleteItem c7WState "9".data).1 = c7WState ∧
    (deleteItem c7WState "1".data).1.clipboardHistory =
      c7WState.clipboardHistory.erase c7C :=
  ⟨(claim_C7 c7WState "9".data).1 (by decide),
   (claim_C7 c7WState "1".data).2.1 (by decide) c7C (by decide) (by decide)⟩

/-! ### C9: restore never touches the history -/

/-- C9: the `copy-to-clipboard` restore path leaves the history list exactly
as it was; the whole state change is confined to the monitoring slots and the
raised internal-write flag. -/
theorem claim_C9 (codec : Codec) (st : ManagerState) (content ty : JSt) :
    (copyToClipboard codec st content ty).clipboardHistory = st.clipboardHistory ∧
    ∃ lt li lh, copyToClipboard codec st content ty =
      { clipboardHistory := st.clipboardHistory, lastTextContent := lt,
        lastImageHash := li, lastHtmlContent := lh, isInternalCopy := true } := by
  unfold copyToClipboard
  split_ifs <;> exact ⟨rfl, _, _, _, rfl⟩

end Clip
